import Mathlib

/-!
# mini-bmc: verification of the runtime control plane

Shallow embedding of the mini-bmc firmware simulator (C sources under
`src/firmware/src/`) together with proofs about its spec-level claims.

Doubles are modelled as rationals (`ℚ`); the C programs here use floating
point only for simple field arithmetic and comparisons, so the rational
model is the intended real-number semantics of the code.  Stateful C
functions become pure functions from state to state; file-system and
clock inputs become explicit parameters.
-/

namespace MiniBMC

/-! ## PID controller (`pid_control.c`)

`pid_state_t` from `bmc_state.h`; `pid_init`, `pid_compute`, `pid_reset`
and `pid_set_output_limits` from `pid_control.c`. -/

structure PIDState where
  kp : ℚ
  ki : ℚ
  kd : ℚ
  setpoint : ℚ
  integral : ℚ
  prev_error : ℚ
  output : ℚ
  output_min : ℚ
  output_max : ℚ
  deriving Repr, DecidableEq

/-- `pid_init` from `pid_control.c`. -/
def pid_init (kp ki kd setpoint : ℚ) : PIDState :=
  { kp := kp, ki := ki, kd := kd, setpoint := setpoint,
    integral := 0, prev_error := 0,
    output := 30, output_min := 10, output_max := 100 }

/-- `pid_compute` from `pid_control.c`.  Returns the updated state and the
returned output value.  The two sequential clamp `if`s on the integral and
on the output are mirrored exactly; `integral_limit` is only used under the
`0 < ki` guard, so the rational (total) division agrees with the C double
division there. -/
def pid_compute (pid : PIDState) (current_temp dt0 : ℚ) : PIDState × ℚ :=
  let dt := if dt0 ≤ 0 then 1 else dt0
  let error := current_temp - pid.setpoint
  let p_term := pid.kp * error
  let integral0 := pid.integral + error * dt
  let integral_limit := (pid.output_max - pid.output_min) / pid.ki
  let integral :=
    if 0 < pid.ki then
      let i1 := if integral_limit < integral0 then integral_limit else integral0
      if i1 < -integral_limit then -integral_limit else i1
    else integral0
  let i_term := pid.ki * integral
  let derivative := (error - pid.prev_error) / dt
  let d_term := pid.kd * derivative
  let output0 := p_term + i_term + d_term + 40
  let output1 := if output0 < pid.output_min then pid.output_min else output0
  let output2 := if pid.output_max < output1 then pid.output_max else output1
  ({ pid with integral := integral, prev_error := error, output := output2 },
   output2)

/-- `pid_reset` from `pid_control.c`. -/
def pid_reset (pid : PIDState) : PIDState :=
  { pid with integral := 0, prev_error := 0 }

/-- `pid_set_output_limits` from `pid_control.c`: rejected (no-op) when
`min ≥ max`, otherwise updates the bounds and re-clamps the output with two
sequential `if`s. -/
def pid_set_output_limits (pid : PIDState) (min max : ℚ) : PIDState :=
  if min ≥ max then pid
  else
    let out1 := if pid.output < min then min else pid.output
    let out2 := if max < out1 then max else out1
    { pid with output_min := min, output_max := max, output := out2 }

/-! ## Data model (`bmc_state.h`)

Enums and records of `bmc_state.h`.  Array-plus-count pairs
(`sensors`/`sensor_count`, `sel`/`sel_count`, `fw_images`/`fw_image_count`)
become Lean lists whose length is the count; `time_t` values become `Nat`
parameters supplied by the caller; the pthread mutex has no behavioural
content in a sequential model and is dropped. -/

inductive SensorType where
  | temperature
  | voltage
  | fanRpm
  | power
  deriving Repr, DecidableEq

/-- Numeric values of the C enum `sensor_type_t`. -/
def SensorType.toNat : SensorType → Nat
  | .temperature => 0
  | .voltage => 1
  | .fanRpm => 2
  | .power => 3

inductive SensorStatus where
  | ok
  | warning
  | critical
  | absent
  deriving Repr, DecidableEq

/-- Numeric values of the C enum `sensor_status_t`. -/
def SensorStatus.toNat : SensorStatus → Nat
  | .ok => 0
  | .warning => 1
  | .critical => 2
  | .absent => 3

structure SensorReading where
  name : String
  type : SensorType
  value : ℚ
  min_valid : ℚ
  max_warning : ℚ
  max_critical : ℚ
  status : SensorStatus
  last_updated : Nat
  deriving Repr, DecidableEq

inductive SelSeverity where
  | info
  | warning
  | critical
  deriving Repr, DecidableEq

/-- Numeric values of the C enum `sel_severity_t`. -/
def SelSeverity.toNat : SelSeverity → Nat
  | .info => 0
  | .warning => 1
  | .critical => 2

structure SelEntry where
  id : Nat
  timestamp : Nat
  severity : SelSeverity
  source : String
  message : String
  deriving Repr, DecidableEq

structure FwImage where
  name : String
  expected_hash : String
  actual_hash : String
  verified : Bool
  passed : Bool
  deriving Repr, DecidableEq

def MAX_SENSORS : Nat := 8
def MAX_SEL_ENTRIES : Nat := 256
def MAX_FW_IMAGES : Nat := 4

structure BmcState where
  sensors : List SensorReading
  pid : PIDState
  fan_duty_percent : ℚ
  sel : List SelEntry
  sel_next_id : Nat
  fw_images : List FwImage
  secure_boot_passed : Bool
  running : Bool
  deriving Repr, DecidableEq

/-! ## System Event Log (`event_log.c`) -/

/-- `sel_init` from `event_log.c`: count 0, next id 1. -/
def sel_init (st : BmcState) : BmcState :=
  { st with sel := [], sel_next_id := 1 }

/-- `sel_add_entry` from `event_log.c`.  At capacity the C code
`memmove`s the buffer left by one (evicting the oldest entry) before
writing the new entry at the tail, which is `List.drop 1` followed by an
append.  `source` and `message` are truncated into their 32- and 256-byte
buffers (31 resp. 255 characters plus NUL).  `sel_next_id` is a
`uint32_t`, so the post-increment wraps modulo `2^32`; the stored state
keeps `sel_next_id < 2^32` from `sel_init` onwards.  Returns the updated
state and the id given to the entry (the C return value). -/
def sel_add_entry (st : BmcState) (severity : SelSeverity)
    (source message : String) (now : Nat) : BmcState × Nat :=
  let buf := if MAX_SEL_ENTRIES ≤ st.sel.length then st.sel.drop 1 else st.sel
  let entry : SelEntry :=
    { id := st.sel_next_id, timestamp := now, severity := severity,
      source := source.take 31, message := message.take 255 }
  ({ st with sel := buf ++ [entry],
             sel_next_id := (st.sel_next_id + 1) % 4294967296 },
   st.sel_next_id)

/-- `sel_get_entry` from `event_log.c`: linear scan for a live entry. -/
def sel_get_entry (st : BmcState) (id : Nat) : Option SelEntry :=
  st.sel.find? (fun e => e.id == id)

/-- A throwaway state used by concrete test runs (its non-SEL fields are
irrelevant to the SEL theorems). -/
def emptyBmc : BmcState :=
  { sensors := [], pid := pid_init 3 (1/10) (3/2) 65,
    fan_duty_percent := 30, sel := [], sel_next_id := 1,
    fw_images := [], secure_boot_passed := false, running := true }

/-- `n` consecutive `sel_add_entry` calls (Info severity) on a freshly
`sel_init`ed state. -/
def selTestState (n : Nat) : BmcState :=
  (List.range n).foldl
    (fun s _ => (sel_add_entry s .info "Test" "msg" 0).1)
    (sel_init emptyBmc)

/-! ## Sensor engine (`sensor.c`) -/

structure SensorConfig where
  name : String
  type : SensorType
  base_value : ℚ
  noise_stddev : ℚ
  min_valid : ℚ
  max_warning : ℚ
  max_critical : ℚ
  deriving Repr, DecidableEq

/-- The static table `default_sensors` from `sensor.c`. -/
def default_sensors : List SensorConfig :=
  [ { name := "CPU_Temp", type := .temperature, base_value := 55,
      noise_stddev := 1.5, min_valid := 10, max_warning := 75,
      max_critical := 90 },
    { name := "Inlet_Temp", type := .temperature, base_value := 28,
      noise_stddev := 0.8, min_valid := 5, max_warning := 38,
      max_critical := 45 },
    { name := "PCH_Temp", type := .temperature, base_value := 48,
      noise_stddev := 1, min_valid := 10, max_warning := 70,
      max_critical := 85 },
    { name := "VCore", type := .voltage, base_value := 1.05,
      noise_stddev := 0.02, min_valid := 0.90, max_warning := 1.15,
      max_critical := 1.25 },
    { name := "V3.3_Stdby", type := .voltage, base_value := 3.30,
      noise_stddev := 0.03, min_valid := 3.10, max_warning := 3.50,
      max_critical := 3.60 },
    { name := "V12_Main", type := .voltage, base_value := 12,
      noise_stddev := 0.08, min_valid := 11.40, max_warning := 12.60,
      max_critical := 13 },
    { name := "CPU_Fan", type := .fanRpm, base_value := 3000,
      noise_stddev := 50, min_valid := 500, max_warning := 6000,
      max_critical := 7000 },
    { name := "SYS_Fan", type := .fanRpm, base_value := 2500,
      noise_stddev := 40, min_valid := 400, max_warning := 5000,
      max_critical := 6000 } ]

/-- Placeholder record used as the default of total list lookups; the C
code never reads out of bounds on the paths modelled here. -/
def defaultConfig : SensorConfig :=
  { name := "", type := .temperature, base_value := 0, noise_stddev := 0,
    min_valid := 0, max_warning := 0, max_critical := 0 }

/-- Placeholder sensor for total list lookups. -/
def defaultSensor : SensorReading :=
  { name := "", type := .temperature, value := 0, min_valid := 0,
    max_warning := 0, max_critical := 0, status := .ok, last_updated := 0 }

/-- `sensor_status_str` from `sensor.c`. -/
def sensor_status_str (status : SensorStatus) : String :=
  match status with
  | .ok => "OK"
  | .warning => "Warning"
  | .critical => "Critical"
  | .absent => "Absent"

/-- `sensor_type_str` from `sensor.c`. -/
def sensor_type_str (type : SensorType) : String :=
  match type with
  | .temperature => "Temperature"
  | .voltage => "Voltage"
  | .fanRpm => "Fan"
  | .power => "Power"

/-- `evaluate_status` from `sensor.c`.  Fan sensors treat low RPM as bad;
other sensors treat high values as bad. -/
def evaluate_status (s : SensorReading) : SensorStatus :=
  if s.type = SensorType.fanRpm then
    if s.value < s.min_valid then .critical
    else if s.max_critical < s.value then .critical
    else if s.max_warning < s.value then .warning
    else .ok
  else
    if s.max_critical ≤ s.value then .critical
    else if s.max_warning ≤ s.value then .warning
    else if s.value < s.min_valid then .warning
    else .ok

/-- The status classification written from the spec's words (§4.2
"Status classification"), for comparison with `evaluate_status`:
Fan: Critical if value < min_valid or > max_critical; Warning if
> max_warning; else Ok.  Others: Critical if value ≥ max_critical;
Warning if value ≥ max_warning or < min_valid; else Ok. -/
def statusSpec (s : SensorReading) : SensorStatus :=
  if s.type = SensorType.fanRpm then
    if s.value < s.min_valid ∨ s.value > s.max_critical then .critical
    else if s.value > s.max_warning then .warning
    else .ok
  else
    if s.value ≥ s.max_critical then .critical
    else if s.value ≥ s.max_warning ∨ s.value < s.min_valid then .warning
    else .ok

/-- `sensor_init` from `sensor.c`: the first `MAX_SENSORS` rows of the
static table become sensors with `value = base_value` and status Ok. -/
def sensor_init (st : BmcState) (now : Nat) : BmcState :=
  { st with sensors := (default_sensors.take MAX_SENSORS).map (fun cfg =>
      { name := cfg.name.take 63, type := cfg.type, value := cfg.base_value,
        min_valid := cfg.min_valid, max_warning := cfg.max_warning,
        max_critical := cfg.max_critical, status := SensorStatus.ok,
        last_updated := now }) }

/-- The per-type value update in the `sensor_poll` loop of `sensor.c`
(the `switch (s->type)` body): thermal model with clamping for
temperatures, base-plus-noise for voltages, duty-proportional RPM for
fans, untouched for the unhandled `default` case.  `nzi` is the Gaussian
draw the C code takes for this sensor on this poll (an arbitrary real, so
every concrete noise sequence is an instance). -/
def pollValue (cfg : SensorConfig) (fan_duty nzi : ℚ)
    (s : SensorReading) : ℚ :=
  match s.type with
  | .temperature =>
    let heat_load : ℚ := 15
    let cool_capacity : ℚ := 25
    let cooling := fan_duty / 100 * cool_capacity
    let target := cfg.base_value + heat_load - cooling
    let v0 := s.value + (target - s.value) * 0.1
    let v1 := v0 + nzi
    let v2 := if v1 < 5 then 5 else v1
    if 105 < v2 then 105 else v2
  | .voltage =>
    let v0 := cfg.base_value + nzi
    if v0 < 0 then 0 else v0
  | .fanRpm =>
    let max_rpm := cfg.base_value * 2
    let v0 := fan_duty / 100 * max_rpm + nzi
    if v0 < 0 then 0 else v0
  | .power => s.value

/-- One sensor's update in the `sensor_poll` loop: new value, new
`last_updated`, and a freshly evaluated status. -/
def pollSensor (cfg : SensorConfig) (fan_duty nzi : ℚ) (now : Nat)
    (s : SensorReading) : SensorReading :=
  let s1 := { s with value := pollValue cfg fan_duty nzi s,
                     last_updated := now }
  { s1 with status := evaluate_status s1 }

/-- The body of the `sensor_poll` loop from `sensor.c` for sensor index
`i`: update the sensor in place, then append a SEL entry if the status
changed into a non-Ok state.  The SEL message's `%.2f`-formatted value is
abstracted away (no claim inspects it). -/
def pollOne (fan_duty : ℚ) (noise : Nat → ℚ) (now : Nat) (st : BmcState)
    (i : Nat) : BmcState :=
  match st.sensors[i]? with
  | none => st
  | some s =>
    let cfg := default_sensors.getD i defaultConfig
    let old_status := s.status
    let s2 := pollSensor cfg fan_duty (noise i) now s
    let st1 := { st with sensors := st.sensors.set i s2 }
    if s2.status ≠ old_status ∧ s2.status ≠ SensorStatus.ok then
      let sev := if s2.status = SensorStatus.critical then
        SelSeverity.critical else SelSeverity.warning
      (sel_add_entry st1 sev "Sensor"
        (s2.name ++ " transitioned to " ++ sensor_status_str s2.status)
        now).1
    else st1

/-- `sensor_poll` from `sensor.c`: one pass over all sensors. -/
def sensor_poll (st : BmcState) (fan_duty : ℚ) (noise : Nat → ℚ)
    (now : Nat) : BmcState :=
  (List.range st.sensors.length).foldl (pollOne fan_duty noise now) st

/-! ## Secure boot (`secure_boot.c`)

The firmware blobs live on disk and their SHA-256 digests are computed by
OpenSSL; both are outside the embedding.  `secure_boot_init` therefore
takes the digest of image `i`'s pristine blob as a parameter `imageHash i`,
and `secure_boot_verify` takes `readHash i`, the result of
`compute_file_hash` on image `i`'s blob at verify time: `none` models an
unreadable file (`fopen` failure, in which case the C helper returns `-1`
without touching the `actual_hash` buffer), `some h` a successful hash. -/

def fw_config_names : List String :=
  ["bootloader", "bmc_firmware", "application", "config_data"]

/-- Placeholder image record for total list lookups. -/
def defaultFw : FwImage :=
  { name := "", expected_hash := "", actual_hash := "",
    verified := false, passed := false }

/-- `secure_boot_init` from `secure_boot.c`: registers the four images
with their expected hashes, `verified = passed = false`, and an untouched
(zeroed) `actual_hash`. -/
def secure_boot_init (st : BmcState) (imageHash : Nat → String)
    (now : Nat) : BmcState :=
  let imgs := (List.range (min fw_config_names.length MAX_FW_IMAGES)).map
    (fun i =>
      { name := (fw_config_names.getD i "").take 63,
        expected_hash := imageHash i, actual_hash := "",
        verified := false, passed := false })
  (sel_add_entry { st with fw_images := imgs } .info "SecureBoot"
    "Secure boot chain initialized" now).1

/-- The verification loop of `secure_boot_verify` from `secure_boot.c`,
recursing over the image list with its index `i` and the running
`all_passed` flag `acc`.  Returns the updated images, the final
`all_passed`, and the SEL events (severity, message) emitted in order.
Mirrored control flow: an unreadable blob marks the image
`verified = true, passed = false`, clears `all_passed`, emits a Critical
event and `continue`s; a hash mismatch marks the image, clears
`all_passed`, emits a Critical event and `break`s (remaining images are
returned untouched). -/
def sbVerifyGo (readHash : Nat → Option String) :
    Nat → Bool → List FwImage →
      List FwImage × Bool × List (SelSeverity × String)
  | _, acc, [] => ([], acc, [])
  | i, acc, fw :: rest =>
    match readHash i with
    | none =>
      let fw1 := { fw with verified := true, passed := false }
      let r := sbVerifyGo readHash (i + 1) false rest
      (fw1 :: r.1, r.2.1,
        (SelSeverity.critical, "FAIL: Cannot read image " ++ fw.name)
          :: r.2.2)
    | some h =>
      let fw1 := { fw with
        actual_hash := h, verified := true,
        passed := fw.expected_hash == h }
      if fw1.passed then
        let r := sbVerifyGo readHash (i + 1) acc rest
        (fw1 :: r.1, r.2.1,
          (SelSeverity.info,
            "PASS: Image " ++ fw.name ++ " integrity verified") :: r.2.2)
      else
        (fw1 :: rest, false,
          [(SelSeverity.critical,
            "FAIL: Image " ++ fw.name ++ " hash mismatch - possible tampering!")])

/-- `secure_boot_verify` from `secure_boot.c`: runs the loop, appends the
emitted SEL events, stores `secure_boot_passed` and returns `all_passed`. -/
def secure_boot_verify (st : BmcState) (readHash : Nat → Option String)
    (now : Nat) : BmcState × Bool :=
  let r := sbVerifyGo readHash 0 true st.fw_images
  let st1 := r.2.2.foldl
    (fun s ev => (sel_add_entry s ev.1 "SecureBoot" ev.2 now).1)
    { st with fw_images := r.1 }
  ({ st1 with secure_boot_passed := r.2.1 }, r.2.1)

/-! ## IPMI dispatcher (`ipmi.c`)

The wire frames carry a 256-byte data array plus a valid-prefix length;
the array is modelled as a `List Nat` of byte values read with `getD _ 0`
(the listener zero-fills the request, and the dispatcher `memset`s the
response to zero, so out-of-prefix bytes read as 0).  `now` is the wall
clock used for SEL entries appended by a handler. -/

def IPMI_NETFN_SENSOR : Nat := 0x04
def IPMI_NETFN_APP : Nat := 0x06
def IPMI_NETFN_STORAGE : Nat := 0x0A
def IPMI_CMD_GET_DEVICE_ID : Nat := 0x01
def IPMI_CMD_GET_SENSOR_READING : Nat := 0x2D
def IPMI_CMD_SET_FAN_DUTY : Nat := 0x30
def IPMI_CMD_GET_SEL_ENTRY : Nat := 0x43
def IPMI_CC_OK : Nat := 0x00
def IPMI_CC_INVALID_CMD : Nat := 0xC1
def IPMI_CC_INVALID_PARAM : Nat := 0xC9

structure IpmiRequest where
  netfn : Nat
  cmd : Nat
  data : List Nat
  data_len : Nat
  deriving Repr, DecidableEq

structure IpmiResponse where
  completion_code : Nat
  data : List Nat
  data_len : Nat
  deriving Repr, DecidableEq

/-- The all-zero response produced by `memset` in `ipmi_handle_command`;
handlers overwrite the fields they set. -/
def zeroResponse : IpmiResponse :=
  { completion_code := 0, data := [], data_len := 0 }

/-- C's double-to-integer conversion truncates toward zero. -/
def ctrunc (x : ℚ) : Int :=
  if x < 0 then ⌈x⌉ else ⌊x⌋

/-- `handle_get_device_id` from `ipmi.c`. -/
def handle_get_device_id : IpmiResponse :=
  { completion_code := IPMI_CC_OK,
    data := [0x20, 0x01, 0x02, 0x05, 0x02], data_len := 5 }

/-- `handle_get_sensor_reading` from `ipmi.c`.  The C code casts
`s->value * 256.0` to `int16_t` (truncation toward zero) and emits the
two's-complement 16-bit value big-endian: byte 0 is `(uint8_t)(raw >> 8)`
(arithmetic shift, i.e. flooring division) and byte 1 is `raw & 0xFF`;
on the 16-bit representative `raw16 = raw mod 2^16` these are
`raw16 / 256` and `raw16 % 256`. -/
def handle_get_sensor_reading (st : BmcState) (req : IpmiRequest) :
    IpmiResponse :=
  if req.data_len < 1 then
    { zeroResponse with completion_code := IPMI_CC_INVALID_PARAM }
  else
    let sensor_num := req.data.getD 0 0
    if st.sensors.length ≤ sensor_num then
      { zeroResponse with completion_code := IPMI_CC_INVALID_PARAM }
    else
      let s := st.sensors.getD sensor_num defaultSensor
      let raw16 : Nat := ((ctrunc (s.value * 256)).emod 65536).toNat
      { completion_code := IPMI_CC_OK,
        data := [raw16 / 256, raw16 % 256, s.status.toNat, s.type.toNat],
        data_len := 4 }

/-- `handle_set_fan_duty` from `ipmi.c`.  The SEL message's `%.0f`
rendering of the duty is abstracted away (no claim inspects it). -/
def handle_set_fan_duty (st : BmcState) (req : IpmiRequest) (now : Nat) :
    BmcState × IpmiResponse :=
  if req.data_len < 1 then
    (st, { zeroResponse with completion_code := IPMI_CC_INVALID_PARAM })
  else
    let duty : ℚ := (req.data.getD 0 0 : ℚ)
    if duty < 0 ∨ 100 < duty then
      (st, { zeroResponse with completion_code := IPMI_CC_INVALID_PARAM })
    else
      let st1 := (sel_add_entry { st with fan_duty_percent := duty }
        .info "IPMI" "Fan duty manually set" now).1
      (st1, { zeroResponse with
        completion_code := IPMI_CC_OK, data_len := 0 })

/-- `handle_get_sel_entry` from `ipmi.c`: two big-endian id bytes select
the entry; the response packs the id (as two bytes), the severity and up
to 200 message characters. -/
def handle_get_sel_entry (st : BmcState) (req : IpmiRequest) :
    IpmiResponse :=
  if req.data_len < 2 then
    { zeroResponse with completion_code := IPMI_CC_INVALID_PARAM }
  else
    let entry_id := (req.data.getD 0 0) <<< 8 ||| req.data.getD 1 0
    match sel_get_entry st entry_id with
    | none =>
      { zeroResponse with completion_code := IPMI_CC_INVALID_PARAM }
    | some e =>
      { completion_code := IPMI_CC_OK,
        data := [(e.id >>> 8) % 256, e.id % 256, e.severity.toNat] ++
          ((e.message.take 200).toList.map Char.toNat),
        data_len := 3 + min e.message.length 200 }

/-- `ipmi_handle_command` from `ipmi.c`: zero the response, then dispatch
on `(netfn, cmd)`.  Returns the (possibly updated) state with the
response. -/
def ipmi_handle_command (st : BmcState) (req : IpmiRequest) (now : Nat) :
    BmcState × IpmiResponse :=
  if req.netfn = IPMI_NETFN_APP then
    if req.cmd = IPMI_CMD_GET_DEVICE_ID then
      (st, handle_get_device_id)
    else
      (st, { zeroResponse with completion_code := IPMI_CC_INVALID_CMD })
  else if req.netfn = IPMI_NETFN_SENSOR then
    if req.cmd = IPMI_CMD_GET_SENSOR_READING then
      (st, handle_get_sensor_reading st req)
    else if req.cmd = IPMI_CMD_SET_FAN_DUTY then
      handle_set_fan_duty st req now
    else
      (st, { zeroResponse with completion_code := IPMI_CC_INVALID_CMD })
  else if req.netfn = IPMI_NETFN_STORAGE then
    if req.cmd = IPMI_CMD_GET_SEL_ENTRY then
      (st, handle_get_sel_entry st req)
    else
      (st, { zeroResponse with completion_code := IPMI_CC_INVALID_CMD })
  else
    (st, { zeroResponse with completion_code := IPMI_CC_INVALID_CMD })

/-- Concrete states for the secure-boot theorems: a state whose four
images were all verified and passed by an earlier verify call. -/
def sbStaleState : BmcState :=
  { emptyBmc with fw_images :=
    [ { name := "bootloader", expected_hash := "h0", actual_hash := "h0",
        verified := true, passed := true },
      { name := "bmc_firmware", expected_hash := "h1", actual_hash := "h1",
        verified := true, passed := true },
      { name := "application", expected_hash := "h2", actual_hash := "h2",
        verified := true, passed := true },
      { name := "config_data", expected_hash := "h3", actual_hash := "h3",
        verified := true, passed := true } ] }

def sbStaleRead : Nat → Option String :=
  fun i => if i = 1 then some "XX" else
    some (["h0", "h1", "h2", "h3"].getD i "")

def fwHashDemo : Nat → String :=
  fun i => ["e0", "e1", "e2", "e3"].getD i ""

def sbNoReadState : BmcState := secure_boot_init emptyBmc fwHashDemo 0

def sbNoReadHash : Nat → Option String :=
  fun i => if i = 0 then none else some (fwHashDemo i)

/-- Index `i` of the sensor list carries a freshly evaluated status. -/
def sensorStatusEval (st : BmcState) (i : Nat) : Prop :=
  (st.sensors.getD i defaultSensor).status =
    evaluate_status (st.sensors.getD i defaultSensor)

/-- All sensors of a state have non-Absent status. -/
def noAbsent (st : BmcState) : Prop :=
  ∀ s ∈ st.sensors, s.status ≠ SensorStatus.absent

/-- A state with a single CPU temperature sensor reading 55.1 °C, and the
Get Sensor Reading request for sensor index 0 (used to separate the C
truncation from the spec's rounding). -/
def stC5 : BmcState :=
  { emptyBmc with sensors :=
    [ { name := "CPU_Temp", type := .temperature, value := 551/10,
        min_valid := 10, max_warning := 75, max_critical := 90,
        status := .ok, last_updated := 0 } ] }

def reqC5 : IpmiRequest :=
  { netfn := 0x04, cmd := 0x2D, data := [0], data_len := 1 }

def reqShortRead : IpmiRequest :=
  { netfn := 0x04, cmd := 0x2D, data := [], data_len := 0 }

def reqShortFan : IpmiRequest :=
  { netfn := 0x04, cmd := 0x30, data := [], data_len := 0 }

def reqShortSel : IpmiRequest :=
  { netfn := 0x0A, cmd := 0x43, data := [5], data_len := 1 }

/-! ## Theorems -/

/-- Helper: the doubly-clamped value lies in `[-L, L]` whenever `0 ≤ L`. -/
lemma clamp_mem (L x : ℚ) (hL : 0 ≤ L) :
    -L ≤ (if (if L < x then L else x) < -L then -L
          else if L < x then L else x) ∧
    (if (if L < x then L else x) < -L then -L
     else if L < x then L else x) ≤ L := by
  split_ifs with h1 h2 h3 <;> constructor <;> linarith

/-- C3: for every `pid_compute` call with `ki > 0` (on a state satisfying the
data-model invariant `output_min ≤ output_max`), the accumulated integral
after the call satisfies `|ki · integral| ≤ output_max − output_min`. -/
theorem pid_compute_antiwindup (pid : PIDState) (t dt : ℚ)
    (hki : 0 < pid.ki) (hb : pid.output_min ≤ pid.output_max) :
    |pid.ki * ((pid_compute pid t dt).1).integral| ≤
      pid.output_max - pid.output_min := by
  have hki' : pid.ki ≠ 0 := ne_of_gt hki
  have hL : 0 ≤ (pid.output_max - pid.output_min) / pid.ki :=
    div_nonneg (by linarith) hki.le
  have hLk : pid.ki * ((pid.output_max - pid.output_min) / pid.ki) =
      pid.output_max - pid.output_min := mul_div_cancel₀ _ hki'
  simp only [pid_compute, hki, if_true]
  rcases clamp_mem ((pid.output_max - pid.output_min) / pid.ki)
      (pid.integral + (t - pid.setpoint) * (if dt ≤ 0 then 1 else dt)) hL
    with ⟨hlo, hhi⟩
  rw [abs_le]
  constructor
  · nlinarith
  · nlinarith

/-- Witness for `pid_compute_antiwindup` at a concrete state. -/
theorem pid_compute_antiwindup_witness :
    0 < (pid_init 3 (1/10) (3/2) 65).ki ∧
    (pid_init 3 (1/10) (3/2) 65).output_min ≤
      (pid_init 3 (1/10) (3/2) 65).output_max ∧
    |(pid_init 3 (1/10) (3/2) 65).ki *
        ((pid_compute (pid_init 3 (1/10) (3/2) 65) 80 2).1).integral| ≤
      (pid_init 3 (1/10) (3/2) 65).output_max -
        (pid_init 3 (1/10) (3/2) 65).output_min :=
  ⟨by norm_num [pid_init], by norm_num [pid_init],
   pid_compute_antiwindup (pid_init 3 (1/10) (3/2) 65) 80 2
     (by norm_num [pid_init]) (by norm_num [pid_init])⟩

/-- C7: after `pid_reset`, a single `pid_compute` at the setpoint returns
exactly the base offset `40` whenever `output_min ≤ 40 ≤ output_max`. -/
theorem pid_reset_compute_at_setpoint (pid : PIDState) (dt : ℚ)
    (h1 : pid.output_min ≤ 40) (h2 : 40 ≤ pid.output_max) :
    (pid_compute (pid_reset pid) pid.setpoint dt).2 = 40 := by
  simp only [pid_compute, pid_reset]
  simp only [sub_self, zero_mul, mul_zero, zero_add, add_zero, sub_zero,
    zero_div]
  have hinner : (if 0 < pid.ki then
        (if (if (pid.output_max - pid.output_min) / pid.ki < 0 then
              (pid.output_max - pid.output_min) / pid.ki
            else 0) < -((pid.output_max - pid.output_min) / pid.ki) then
          -((pid.output_max - pid.output_min) / pid.ki)
        else if (pid.output_max - pid.output_min) / pid.ki < 0 then
          (pid.output_max - pid.output_min) / pid.ki
        else 0)
      else 0) = 0 := by
    by_cases hk : 0 < pid.ki
    · have hL : 0 ≤ (pid.output_max - pid.output_min) / pid.ki :=
        div_nonneg (by linarith) hk.le
      have hA : ¬ (pid.output_max - pid.output_min) / pid.ki < 0 :=
        not_lt.mpr hL
      have hB : ¬ (0:ℚ) < -((pid.output_max - pid.output_min) / pid.ki) :=
        not_lt.mpr (by linarith)
      simp only [if_pos hk, if_neg hA, if_neg hB]
    · simp only [if_neg hk]
  simp only [hinner, mul_zero, zero_add]
  have hx : ¬ (40:ℚ) < pid.output_min := not_lt.mpr h1
  have hy : ¬ pid.output_max < (40:ℚ) := not_lt.mpr h2
  simp only [if_neg hx, if_neg hy]

/-- Witness for `pid_reset_compute_at_setpoint` on the supervisor's default
tuning (`pid_init 3 0.1 1.5 65` with default bounds `[10, 100]`). -/
theorem pid_reset_compute_at_setpoint_witness :
    (pid_init 3 (1/10) (3/2) 65).output_min ≤ 40 ∧
    40 ≤ (pid_init 3 (1/10) (3/2) 65).output_max ∧
    (pid_compute (pid_reset (pid_init 3 (1/10) (3/2) 65))
        (pid_init 3 (1/10) (3/2) 65).setpoint 2).2 = 40 :=
  ⟨by norm_num [pid_init], by norm_num [pid_init],
   pid_reset_compute_at_setpoint (pid_init 3 (1/10) (3/2) 65) 2
     (by norm_num [pid_init]) (by norm_num [pid_init])⟩

/-- C9: `pid_set_output_limits` with `min ≥ max` is a complete no-op. -/
theorem pid_set_output_limits_rejects (pid : PIDState) (mn mx : ℚ)
    (h : mn ≥ mx) : pid_set_output_limits pid mn mx = pid := by
  simp only [pid_set_output_limits, if_pos h]

/-- Witness for `pid_set_output_limits_rejects`: `min = max = 50` on the
default-initialized controller. -/
theorem pid_set_output_limits_rejects_witness :
    (50:ℚ) ≥ 50 ∧
    pid_set_output_limits (pid_init 3 (1/10) (3/2) 65) 50 50 =
      pid_init 3 (1/10) (3/2) 65 :=
  ⟨le_refl _, pid_set_output_limits_rejects (pid_init 3 (1/10) (3/2) 65) 50 50
    (le_refl _)⟩

/-- One unfolding of the `selTestState` run. -/
lemma selTestState_succ (n : Nat) :
    selTestState (n + 1) =
      (sel_add_entry (selTestState n) .info "Test" "msg" 0).1 := by
  simp [selTestState, List.range_succ]

set_option maxRecDepth 4000 in
/-- Closed form of the `selTestState` run (below the `uint32` horizon):
after `n` appends the live ids are the last `min n 256` of `1..n`, in
order, and the next id is `n + 1`. -/
lemma selTestState_spec : ∀ n : Nat, n + 1 < 4294967296 →
    (selTestState n).sel.map SelEntry.id =
      (List.range (min n 256)).map (fun k => k + (n + 1 - min n 256)) ∧
    (selTestState n).sel_next_id = n + 1 := by
  intro n
  induction n with
  | zero =>
    intro _
    constructor
    · simp [selTestState, sel_init]
    · simp [selTestState, sel_init]
  | succ n ih =>
    intro hn
    obtain ⟨hids, hnext⟩ := ih (by omega)
    have hlen : (selTestState n).sel.length = min n 256 := by
      have := congrArg List.length hids
      simpa using this
    rw [selTestState_succ]
    by_cases hcap : 256 ≤ n
    · -- at capacity: evict the oldest entry
      have hmin : min n 256 = 256 := by omega
      have hcond : MAX_SEL_ENTRIES ≤ (selTestState n).sel.length := by
        rw [hlen, hmin]
        decide
      refine ⟨?_, ?_⟩
      · simp only [sel_add_entry, if_pos hcond, List.map_append, List.map_drop,
          hids, hnext, List.map_cons, List.map_nil, hmin]
        have hmin' : min (n + 1) 256 = 256 := by omega
        rw [hmin']
        apply List.ext_getElem
        · simp
        · intro i h1 h2
          have hi : i < 256 := by
            simpa using h2
          by_cases hlast : i < 255
          · rw [List.getElem_append_left (by simpa using hlast)]
            rw [List.getElem_drop]
            rw [List.getElem_map, List.getElem_map, List.getElem_range,
              List.getElem_range]
            omega
          · rw [List.getElem_append_right (by simpa using hlast)]
            rw [List.getElem_map, List.getElem_range]
            rw [List.getElem_singleton]
            omega
      · simp only [sel_add_entry, hnext]
        omega
    · -- below capacity: plain append
      have hmin : min n 256 = n := by omega
      have hcond : ¬ MAX_SEL_ENTRIES ≤ (selTestState n).sel.length := by
        rw [hlen, hmin]
        simp only [MAX_SEL_ENTRIES]
        omega
      refine ⟨?_, ?_⟩
      · simp only [sel_add_entry, if_neg hcond, List.map_append, hids, hnext,
          List.map_cons, List.map_nil, hmin]
        have hmin' : min (n + 1) 256 = n + 1 := by omega
        rw [hmin']
        apply List.ext_getElem
        · simp
        · intro i h1 h2
          have hi : i < n + 1 := by
            simpa using h2
          by_cases hlast : i < n
          · rw [List.getElem_append_left (by simpa using hlast)]
            rw [List.getElem_map, List.getElem_map, List.getElem_range,
              List.getElem_range]
            omega
          · rw [List.getElem_append_right (by simpa using hlast)]
            rw [List.getElem_map, List.getElem_range]
            rw [List.getElem_singleton]
            omega
      · simp only [sel_add_entry, hnext]
        omega

/-- `sel_add_entry` keeps a (dropped-or-whole) sublist of the old buffer
and appends the new entry at the tail. -/
lemma sel_add_entry_sublist (st : BmcState) (sev : SelSeverity)
    (src msg : String) (now : Nat) :
    ∃ buf, buf.Sublist st.sel ∧
      ((sel_add_entry st sev src msg now).1).sel =
        buf ++ [{ id := st.sel_next_id, timestamp := now, severity := sev,
                  source := src.take 31, message := msg.take 255 }] := by
  refine ⟨if MAX_SEL_ENTRIES ≤ st.sel.length then st.sel.drop 1 else st.sel,
    ?_, ?_⟩
  · split_ifs
    · exact List.drop_sublist _ _
    · exact List.Sublist.refl _
  · rfl

/-- C4: appending 300 entries to an empty SEL leaves 256 live entries
whose ids are exactly `45..300` in insertion order, and the next append is
assigned id `301`; moreover one `sel_add_entry` step never grows the count
past 256, and (below the `uint32` horizon) it preserves strictly
increasing ids. -/
theorem sel_ring_overflow_300 :
    (selTestState 300).sel.length = 256 ∧
    (selTestState 300).sel.map SelEntry.id =
      (List.range 256).map (fun k => k + 45) ∧
    (sel_add_entry (selTestState 300) .info "Test" "msg" 0).2 = 301 ∧
    (∀ st sev src msg now, st.sel.length ≤ MAX_SEL_ENTRIES →
      ((sel_add_entry st sev src msg now).1).sel.length ≤ MAX_SEL_ENTRIES) ∧
    (∀ st sev src msg now,
      st.sel_next_id + 1 < 4294967296 →
      (st.sel.map SelEntry.id).Pairwise (· < ·) →
      (∀ e ∈ st.sel, e.id < st.sel_next_id) →
      (((sel_add_entry st sev src msg now).1).sel.map
          SelEntry.id).Pairwise (· < ·) ∧
      ∀ e ∈ ((sel_add_entry st sev src msg now).1).sel,
        e.id < ((sel_add_entry st sev src msg now).1).sel_next_id) := by
  have hspec := selTestState_spec 300 (by norm_num)
  have hids : (selTestState 300).sel.map SelEntry.id =
      (List.range 256).map (fun k => k + 45) := by
    have h := hspec.1
    norm_num at h
    exact h
  refine ⟨?_, hids, ?_, ?_, ?_⟩
  · have := congrArg List.length hids
    simpa using this
  · simp only [sel_add_entry, hspec.2]
  · intro st sev src msg now h
    simp only [sel_add_entry, MAX_SEL_ENTRIES] at *
    split_ifs with hc
    · simp only [List.length_append, List.length_drop, List.length_cons,
        List.length_nil]
      omega
    · simp only [List.length_append, List.length_cons, List.length_nil]
      omega
  · intro st sev src msg now hwrap hpair hbound
    obtain ⟨buf, hsub, hbuf⟩ := sel_add_entry_sublist st sev src msg now
    have hnext : ((sel_add_entry st sev src msg now).1).sel_next_id =
        st.sel_next_id + 1 := by
      simp only [sel_add_entry]
      exact Nat.mod_eq_of_lt hwrap
    constructor
    · rw [hbuf, List.map_append, List.pairwise_append]
      refine ⟨hpair.sublist (hsub.map _), ?_, ?_⟩
      · simp
      · intro a ha b hb
        simp only [List.map_cons, List.map_nil, List.mem_singleton] at hb
        subst hb
        simp only [List.mem_map] at ha
        obtain ⟨e, he, rfl⟩ := ha
        exact hbound e (hsub.mem he)
    · intro e he
      rw [hnext]
      rw [hbuf] at he
      simp only [List.mem_append, List.mem_singleton] at he
      rcases he with he | rfl
      · exact Nat.lt_succ_of_lt (hbound e (hsub.mem he))
      · exact Nat.lt_succ_self _

/-- Witness for the hypothesis-bearing parts of `sel_ring_overflow_300`,
instantiated on a freshly initialized SEL. -/
theorem sel_ring_overflow_300_witness :
    ((sel_add_entry (sel_init emptyBmc) .info "A" "B" 7).1).sel.length ≤
      MAX_SEL_ENTRIES ∧
    ((((sel_add_entry (sel_init emptyBmc) .info "A" "B" 7).1).sel.map
        SelEntry.id).Pairwise (· < ·) ∧
      ∀ e ∈ ((sel_add_entry (sel_init emptyBmc) .info "A" "B" 7).1).sel,
        e.id <
          ((sel_add_entry (sel_init emptyBmc) .info "A" "B" 7).1).sel_next_id) :=
  ⟨sel_ring_overflow_300.2.2.2.1 (sel_init emptyBmc) .info "A" "B" 7
      (by decide),
   sel_ring_overflow_300.2.2.2.2 (sel_init emptyBmc) .info "A" "B" 7
      (by decide) (by decide) (by decide)⟩

/-- `evaluate_status` only produces Ok, Warning or Critical. -/
lemma evaluate_status_ne_absent (s : SensorReading) :
    evaluate_status s ≠ SensorStatus.absent := by
  unfold evaluate_status
  split_ifs <;> simp

/-- Re-evaluating a sensor whose status field was overwritten gives the
same classification: `evaluate_status` never reads `status`. -/
lemma evaluate_status_set_status (s : SensorReading) (x : SensorStatus) :
    evaluate_status { s with status := x } = evaluate_status s := rfl

/-- The updated sensor's stored status is its own classification. -/
lemma pollSensor_status (cfg : SensorConfig) (f nzi : ℚ) (now : Nat)
    (s : SensorReading) :
    (pollSensor cfg f nzi now s).status =
      evaluate_status (pollSensor cfg f nzi now s) := by
  unfold pollSensor
  rw [evaluate_status_set_status]

/-- `pollOne` either leaves the sensor list unchanged (out-of-range
index) or replaces exactly index `j` (in range) with a sensor whose
status is its own `evaluate_status`. -/
lemma pollOne_sensors (f : ℚ) (nz : Nat → ℚ) (now : Nat) (st : BmcState)
    (j : Nat) :
    (st.sensors.length ≤ j ∧ (pollOne f nz now st j).sensors = st.sensors) ∨
    (∃ s2, j < st.sensors.length ∧
      (pollOne f nz now st j).sensors = st.sensors.set j s2 ∧
      s2.status = evaluate_status s2) := by
  cases h : st.sensors[j]? with
  | none =>
    left
    refine ⟨?_, ?_⟩
    · exact List.getElem?_eq_none_iff.mp h
    · simp [pollOne, h]
  | some s =>
    right
    refine ⟨pollSensor (default_sensors.getD j defaultConfig) f (nz j) now s,
      ?_, ?_, pollSensor_status _ _ _ _ _⟩
    · exact (List.getElem?_eq_some_iff.mp h).1
    · simp only [pollOne, h]
      split_ifs <;> simp [sel_add_entry]

/-- `pollOne` preserves the sensor count. -/
lemma pollOne_length (f : ℚ) (nz : Nat → ℚ) (now : Nat) (st : BmcState)
    (j : Nat) :
    (pollOne f nz now st j).sensors.length = st.sensors.length := by
  rcases pollOne_sensors f nz now st j with ⟨_, h⟩ | ⟨s2, _, h, _⟩ <;>
    simp [h]

/-- `pollOne` at index `i` (in range) freshly evaluates index `i`'s
status. -/
lemma pollOne_establishes (f : ℚ) (nz : Nat → ℚ) (now : Nat)
    (st : BmcState) (i : Nat) (hi : i < st.sensors.length) :
    sensorStatusEval (pollOne f nz now st i) i := by
  rcases pollOne_sensors f nz now st i with ⟨hle, _⟩ | ⟨s2, _, h, hs2⟩
  · omega
  · unfold sensorStatusEval
    rw [h]
    simp only [List.getD_eq_getElem?_getD, List.getElem?_set_self hi,
      Option.getD_some]
    exact hs2

/-- `pollOne` at another index leaves index `i`'s freshness intact. -/
lemma pollOne_preserves (f : ℚ) (nz : Nat → ℚ) (now : Nat)
    (st : BmcState) (j i : Nat) (hne : j ≠ i)
    (hP : sensorStatusEval st i) : sensorStatusEval (pollOne f nz now st j) i := by
  rcases pollOne_sensors f nz now st j with ⟨_, h⟩ | ⟨s2, _, h, _⟩
  · unfold sensorStatusEval at *
    rw [h]
    exact hP
  · unfold sensorStatusEval at *
    rw [h]
    simp only [List.getD_eq_getElem?_getD, List.getElem?_set_ne hne]
    simp only [List.getD_eq_getElem?_getD] at hP
    exact hP

/-- Freshness of index `i` survives polling any list of other indices
(an index equal to `i` would just re-establish it, in range or not). -/
lemma pollFold_preserves (f : ℚ) (nz : Nat → ℚ) (now : Nat) (i : Nat) :
    ∀ (l : List Nat) (st : BmcState), sensorStatusEval st i →
      sensorStatusEval (l.foldl (pollOne f nz now) st) i := by
  intro l
  induction l with
  | nil => intro st hP; exact hP
  | cons j rest ih =>
    intro st hP
    simp only [List.foldl_cons]
    by_cases hj : j = i
    · subst hj
      by_cases hi : j < st.sensors.length
      · exact ih _ (pollOne_establishes f nz now st j hi)
      · rcases pollOne_sensors f nz now st j with ⟨_, h⟩ | ⟨s2, hlt, h, _⟩
        · refine ih _ ?_
          unfold sensorStatusEval at *
          rw [h]
          exact hP
        · omega
    · exact ih _ (pollOne_preserves f nz now st j i hj hP)

/-- After folding over a list containing `i` (with `i` in range), index
`i` carries a freshly evaluated status. -/
lemma pollFold_establishes (f : ℚ) (nz : Nat → ℚ) (now : Nat) (i : Nat) :
    ∀ (l : List Nat) (st : BmcState), i ∈ l → i < st.sensors.length →
      sensorStatusEval (l.foldl (pollOne f nz now) st) i := by
  intro l
  induction l with
  | nil => intro st hmem; exact absurd hmem (List.not_mem_nil i)
  | cons j rest ih =>
    intro st hmem hi
    simp only [List.foldl_cons]
    by_cases hj : j = i
    · subst hj
      exact pollFold_preserves f nz now j rest _
        (pollOne_establishes f nz now st j hi)
    · have hmem' : i ∈ rest := by
        rcases List.mem_cons.mp hmem with h | h
        · exact absurd h.symm hj
        · exact h
      exact ih _ hmem' (by rw [pollOne_length]; exact hi)

/-- C6: the status classification.  `evaluate_status` agrees with the
spec's classification rules everywhere, and after every `sensor_poll`
each in-range sensor's stored status is exactly that classification of
its (post-poll) reading. -/
theorem sensor_status_classification :
    (∀ s : SensorReading, evaluate_status s = statusSpec s) ∧
    (∀ st f nz now i, i < st.sensors.length →
      ((sensor_poll st f nz now).sensors.getD i defaultSensor).status =
        statusSpec ((sensor_poll st f nz now).sensors.getD i defaultSensor)) := by
  have heq : ∀ s : SensorReading, evaluate_status s = statusSpec s := by
    intro s
    unfold evaluate_status statusSpec
    by_cases hty : s.type = SensorType.fanRpm
    · simp only [if_pos hty, gt_iff_lt]
      split_ifs <;> first | rfl | tauto
    · simp only [if_neg hty, ge_iff_le, gt_iff_lt]
      split_ifs <;> first | rfl | tauto
  refine ⟨heq, ?_⟩
  intro st f nz now i hi
  have h := pollFold_establishes f nz now i (List.range st.sensors.length)
    st (List.mem_range.mpr hi) hi
  unfold sensorStatusEval at h
  unfold sensor_poll
  rw [h]
  exact heq _

/-- Witness for `sensor_status_classification` on the default sensor
table: index 0 (CPU_Temp) after one poll with zero noise at 30% duty. -/
theorem sensor_status_classification_witness :
    0 < (sensor_init emptyBmc 0).sensors.length ∧
    ((sensor_poll (sensor_init emptyBmc 0) 30 (fun _ => 0) 1).sensors.getD 0
        defaultSensor).status =
      statusSpec
        ((sensor_poll (sensor_init emptyBmc 0) 30 (fun _ => 0) 1).sensors.getD 0
          defaultSensor) :=
  ⟨by decide,
   sensor_status_classification.2 (sensor_init emptyBmc 0) 30 (fun _ => 0) 1 0
     (by decide)⟩

/-- `pollOne` preserves `noAbsent`. -/
lemma pollOne_noAbsent (f : ℚ) (nz : Nat → ℚ) (now : Nat) (st : BmcState)
    (j : Nat) (h : noAbsent st) : noAbsent (pollOne f nz now st j) := by
  rcases pollOne_sensors f nz now st j with ⟨_, hs⟩ | ⟨s2, _, hs, hs2⟩
  · unfold noAbsent at *
    rw [hs]
    exact h
  · intro s hmem
    rw [hs] at hmem
    rcases List.mem_or_eq_of_mem_set hmem with hmem' | rfl
    · exact h s hmem'
    · rw [hs2]
      exact evaluate_status_ne_absent _
/-- `sensor_poll` preserves `noAbsent`. -/
lemma sensor_poll_noAbsent (st : BmcState) (f : ℚ) (nz : Nat → ℚ)
    (now : Nat) (h : noAbsent st) : noAbsent (sensor_poll st f nz now) := by
  unfold sensor_poll
  generalize List.range st.sensors.length = l
  induction l generalizing st with
  | nil => exact h
  | cons j rest ih =>
    simp only [List.foldl_cons]
    exact ih _ (pollOne_noAbsent f nz now st j h)

/-- C8: the status Absent is unreachable: after `sensor_init` and any
sequence of `sensor_poll`s (arbitrary duties, noises and clocks), no
sensor — read at any index — has status Absent. -/
theorem sensor_absent_unreachable (st0 : BmcState) (now : Nat)
    (polls : List (ℚ × (Nat → ℚ) × Nat)) (i : Nat) :
    ((polls.foldl (fun acc p => sensor_poll acc p.1 p.2.1 p.2.2)
        (sensor_init st0 now)).sensors.getD i defaultSensor).status ≠
      SensorStatus.absent := by
  have hinit : noAbsent (sensor_init st0 now) := by
    intro s hmem
    simp only [sensor_init, List.mem_map] at hmem
    obtain ⟨cfg, _, rfl⟩ := hmem
    simp
  have hfold : ∀ (ps : List (ℚ × (Nat → ℚ) × Nat)) (st : BmcState),
      noAbsent st →
      noAbsent (ps.foldl (fun acc p => sensor_poll acc p.1 p.2.1 p.2.2) st) := by
    intro ps
    induction ps with
    | nil => intro st h; exact h
    | cons p rest ih =>
      intro st h
      simp only [List.foldl_cons]
      exact ih _ (sensor_poll_noAbsent st p.1 p.2.1 p.2.2 h)
  have hall := hfold polls (sensor_init st0 now) hinit
  cases hgd : (polls.foldl (fun acc p => sensor_poll acc p.1 p.2.1 p.2.2)
      (sensor_init st0 now)).sensors[i]? with
  | none =>
    simp only [List.getD_eq_getElem?_getD, hgd, Option.getD_none]
    decide
  | some s =>
    simp only [List.getD_eq_getElem?_getD, hgd, Option.getD_some]
    exact hall s (List.getElem?_mem hgd)

lemma selEvFold_fw (now : Nat) :
    ∀ (evs : List (SelSeverity × String)) (s : BmcState),
      ((evs.foldl (fun s ev => (sel_add_entry s ev.1 "SecureBoot" ev.2 now).1)
          s).fw_images =
        s.fw_images) ∧
      ((evs.foldl (fun s ev => (sel_add_entry s ev.1 "SecureBoot" ev.2 now).1)
          s).secure_boot_passed =
        s.secure_boot_passed) := by
  intro evs
  induction evs with
  | nil => intro s; exact ⟨rfl, rfl⟩
  | cons ev rest ih =>
    intro s
    simp only [List.foldl_cons]
    exact ⟨(ih _).1, (ih _).2⟩

lemma sbVerifyGo_mismatch (readHash : Nat → Option String) :
    ∀ (imgs : List FwImage) (k i : Nat) (acc : Bool) (hk : String),
      k < imgs.length →
      (∀ j, j < k →
        readHash (i + j) = some ((imgs.getD j defaultFw).expected_hash)) →
      readHash (i + k) = some hk →
      hk ≠ (imgs.getD k defaultFw).expected_hash →
      (sbVerifyGo readHash i acc imgs).1.drop (k + 1) = imgs.drop (k + 1) ∧
      ((sbVerifyGo readHash i acc imgs).1.getD k defaultFw).passed = false ∧
      (sbVerifyGo readHash i acc imgs).2.1 = false := by
  intro imgs
  induction imgs with
  | nil =>
    intro k i acc hk hlen
    simp at hlen
  | cons fw rest ih =>
    intro k i acc hk hlen hpass hread hne
    cases k with
    | zero =>
      rw [Nat.add_zero] at hread
      have hbeq : (fw.expected_hash == hk) = false := by
        rw [beq_eq_false_iff_ne]
        simp only [List.getD_cons_zero] at hne
        exact fun e => hne e.symm
      simp only [sbVerifyGo, hread, hbeq]
      simp only [Bool.false_eq_true, if_false, List.drop_succ_cons,
        List.drop_zero, List.getD_cons_zero]
      exact ⟨trivial, trivial, trivial⟩
    | succ k' =>
      have h0 := hpass 0 (Nat.succ_pos k')
      rw [Nat.add_zero] at h0
      simp only [List.getD_cons_zero] at h0
      have hbeq : (fw.expected_hash == fw.expected_hash) = true := beq_self_eq_true _
      simp only [sbVerifyGo, h0, hbeq, if_true]
      have ihh := ih k' (i + 1) acc hk
        (by simpa using hlen)
        (fun j hj => by
          have := hpass (j + 1) (by omega)
          rw [show i + (j + 1) = i + 1 + j from by omega] at this
          simpa only [List.getD_cons_succ] using this)
        (by
          have := hread
          rw [show i + (k' + 1) = i + 1 + k' from by omega] at this
          exact this)
        (by simpa only [List.getD_cons_succ] using hne)
      refine ⟨?_, ?_, ?_⟩
      · simp only [List.drop_succ_cons]
        exact ihh.1
      · simp only [List.getD_cons_succ]
        exact ihh.2.1
      · exact ihh.2.2

lemma secure_boot_verify_unfold (st : BmcState)
    (readHash : Nat → Option String) (now : Nat) :
    (secure_boot_verify st readHash now).1.fw_images =
      (sbVerifyGo readHash 0 true st.fw_images).1 ∧
    (secure_boot_verify st readHash now).1.secure_boot_passed =
      (sbVerifyGo readHash 0 true st.fw_images).2.1 := by
  constructor
  · exact (selEvFold_fw now _ _).1
  · rfl

lemma secure_boot_init_fw (h : Nat → String) (now : Nat) :
    (secure_boot_init emptyBmc h now).fw_images =
      (List.range 4).map (fun i =>
        { name := (fw_config_names.getD i "").take 63,
          expected_hash := h i, actual_hash := "",
          verified := false, passed := false }) := by
  have : min fw_config_names.length MAX_FW_IMAGES = 4 := by decide
  simp only [secure_boot_init, this]
  rfl

set_option maxRecDepth 8000 in
lemma tamper_scenario (h : Nat → String) (h1' : String) (now now2 : Nat)
    (hne : h1' ≠ h 1) :
    ((secure_boot_verify (secure_boot_init emptyBmc h now)
        (fun i => if i = 1 then some h1' else some (h i)) now2).1.fw_images.getD
          0 defaultFw).passed = true ∧
    ((secure_boot_verify (secure_boot_init emptyBmc h now)
        (fun i => if i = 1 then some h1' else some (h i)) now2).1.fw_images.getD
          1 defaultFw).passed = false ∧
    ((secure_boot_verify (secure_boot_init emptyBmc h now)
        (fun i => if i = 1 then some h1' else some (h i)) now2).1.fw_images.getD
          1 defaultFw).verified = true ∧
    ((secure_boot_verify (secure_boot_init emptyBmc h now)
        (fun i => if i = 1 then some h1' else some (h i)) now2).1.fw_images.getD
          2 defaultFw).verified = false ∧
    ((secure_boot_verify (secure_boot_init emptyBmc h now)
        (fun i => if i = 1 then some h1' else some (h i)) now2).1.fw_images.getD
          3 defaultFw).verified = false ∧
    (secure_boot_verify (secure_boot_init emptyBmc h now)
        (fun i => if i = 1 then some h1' else some (h i)) now2).1.secure_boot_passed =
      false := by
  obtain ⟨hfw, hsb⟩ := secure_boot_verify_unfold (secure_boot_init emptyBmc h now)
    (fun i => if i = 1 then some h1' else some (h i)) now2
  rw [secure_boot_init_fw] at hfw hsb
  have hb0 : (h 0 == h 0) = true := beq_self_eq_true _
  have hb1 : (h 1 == h1') = false := by
    rw [beq_eq_false_iff_ne]
    exact fun e => hne e.symm
  have hrange : List.range 4 = [0, 1, 2, 3] := by decide
  rw [hrange] at hfw hsb
  have e0 : ((fun i => if i = 1 then some h1' else some (h i)) 0 :
      Option String) = some (h 0) := by norm_num
  have e1 : ((fun i => if i = 1 then some h1' else some (h i)) 1 :
      Option String) = some h1' := by norm_num
  simp only [List.map_cons, List.map_nil] at hfw hsb
  simp only [sbVerifyGo, e0, e1, hb0, hb1, if_true, Bool.false_eq_true,
    if_false] at hfw hsb
  rw [hfw, hsb]
  simp [List.getD_cons_zero, List.getD_cons_succ]

theorem secure_boot_downstream_not_reset :
    (((secure_boot_verify sbStaleState sbStaleRead 0).1.fw_images.getD 1
        defaultFw).passed = false) ∧
    (((secure_boot_verify sbStaleState sbStaleRead 0).1.fw_images.getD 2
        defaultFw).verified = true) := by decide

theorem secure_boot_read_failure_continues :
    ((secure_boot_verify sbNoReadState sbNoReadHash 1).1.fw_images.getD 0
        defaultFw).verified = true ∧
    ((secure_boot_verify sbNoReadState sbNoReadHash 1).1.fw_images.getD 0
        defaultFw).passed = false ∧
    ((secure_boot_verify sbNoReadState sbNoReadHash 1).1.sel.any
        (fun e => e.severity == SelSeverity.critical)) = true ∧
    (secure_boot_verify sbNoReadState sbNoReadHash 1).1.secure_boot_passed =
      false ∧
    (sbNoReadState.fw_images.getD 1 defaultFw).verified = false ∧
    ((secure_boot_verify sbNoReadState sbNoReadHash 1).1.fw_images.getD 1
        defaultFw).verified = true := by decide

theorem secure_boot_chain_break :
    (∀ (st : BmcState) (readHash : Nat → Option String) (now k : Nat)
        (hk : String),
      k < st.fw_images.length →
      (∀ j, j < k →
        readHash j = some ((st.fw_images.getD j defaultFw).expected_hash)) →
      readHash k = some hk →
      hk ≠ (st.fw_images.getD k defaultFw).expected_hash →
      (secure_boot_verify st readHash now).1.fw_images.drop (k + 1) =
        st.fw_images.drop (k + 1) ∧
      ((secure_boot_verify st readHash now).1.fw_images.getD k
        defaultFw).passed = false ∧
      (secure_boot_verify st readHash now).1.secure_boot_passed = false) ∧
    (∀ (h : Nat → String) (h1' : String) (now now2 : Nat), h1' ≠ h 1 →
      ((secure_boot_verify (secure_boot_init emptyBmc h now)
          (fun i => if i = 1 then some h1' else some (h i)) now2).1.fw_images.getD
            0 defaultFw).passed = true ∧
      ((secure_boot_verify (secure_boot_init emptyBmc h now)
          (fun i => if i = 1 then some h1' else some (h i)) now2).1.fw_images.getD
            1 defaultFw).passed = false ∧
      ((secure_boot_verify (secure_boot_init emptyBmc h now)
          (fun i => if i = 1 then some h1' else some (h i)) now2).1.fw_images.getD
            1 defaultFw).verified = true ∧
      ((secure_boot_verify (secure_boot_init emptyBmc h now)
          (fun i => if i = 1 then some h1' else some (h i)) now2).1.fw_images.getD
            2 defaultFw).verified = false ∧
      ((secure_boot_verify (secure_boot_init emptyBmc h now)
          (fun i => if i = 1 then some h1' else some (h i)) now2).1.fw_images.getD
            3 defaultFw).verified = false ∧
      (secure_boot_verify (secure_boot_init emptyBmc h now)
          (fun i => if i = 1 then some h1' else some (h i))
          now2).1.secure_boot_passed = false) := by
  constructor
  · intro st readHash now k hk hlen hpass hread hne
    obtain ⟨hfw, hsb⟩ := secure_boot_verify_unfold st readHash now
    have hgo := sbVerifyGo_mismatch readHash st.fw_images k 0 true hk hlen
      (fun j hj => by simpa using hpass j hj)
      (by simpa using hread) hne
    rw [hfw, hsb]
    exact hgo
  · intro h h1' now now2 hne
    exact tamper_scenario h h1' now now2 hne

theorem secure_boot_chain_break_witness :
    ((secure_boot_verify sbStaleState sbStaleRead 0).1.fw_images.drop 2 =
        sbStaleState.fw_images.drop 2 ∧
      ((secure_boot_verify sbStaleState sbStaleRead 0).1.fw_images.getD 1
        defaultFw).passed = false ∧
      (secure_boot_verify sbStaleState sbStaleRead 0).1.secure_boot_passed =
        false) ∧
    ((secure_boot_verify (secure_boot_init emptyBmc (fun _ => "a") 3)
        (fun i => if i = 1 then some "b" else some ((fun _ => "a") i))
        4).1.fw_images.getD 2 defaultFw).verified = false :=
  ⟨secure_boot_chain_break.1 sbStaleState sbStaleRead 0 1 "XX" (by decide)
      (fun j hj => by
        have hj0 : j = 0 := by omega
        subst hj0
        decide)
      (by decide) (by decide),
   (secure_boot_chain_break.2 (fun _ => "a") "b" 3 4 (by decide)).2.2.2.1⟩

theorem get_sensor_reading_fixed_point :
    ∀ (st : BmcState) (req : IpmiRequest) (now : Nat),
      req.netfn = IPMI_NETFN_SENSOR →
      req.cmd = IPMI_CMD_GET_SENSOR_READING →
      1 ≤ req.data_len →
      (req.data.getD 0 0 < st.sensors.length →
        (ipmi_handle_command st req now).2.completion_code = IPMI_CC_OK ∧
        (ipmi_handle_command st req now).2.data.getD 0 0 * 256 +
            (ipmi_handle_command st req now).2.data.getD 1 0 =
          ((ctrunc ((st.sensors.getD (req.data.getD 0 0)
            defaultSensor).value * 256)).emod 65536).toNat ∧
        (ipmi_handle_command st req now).2.data.getD 2 0 =
          (st.sensors.getD (req.data.getD 0 0) defaultSensor).status.toNat ∧
        (ipmi_handle_command st req now).2.data.getD 3 0 =
          (st.sensors.getD (req.data.getD 0 0) defaultSensor).type.toNat ∧
        (ipmi_handle_command st req now).2.data_len = 4 ∧
        (ipmi_handle_command st req now).1 = st) ∧
      (st.sensors.length ≤ req.data.getD 0 0 →
        (ipmi_handle_command st req now).2.completion_code =
          IPMI_CC_INVALID_PARAM) := by
  intro st req now hn hc hlen
  have hna : ¬ req.netfn = IPMI_NETFN_APP := by
    rw [hn]
    decide
  have hlen' : ¬ req.data_len < 1 := by omega
  constructor
  · intro hlt
    have hrange : ¬ st.sensors.length ≤ req.data.getD 0 0 := by omega
    simp only [ipmi_handle_command, if_neg hna, if_pos hn, if_pos hc,
      handle_get_sensor_reading, if_neg hlen', if_neg hrange]
    simp only [List.getD_cons_zero, List.getD_cons_succ]
    refine ⟨trivial, ?_, trivial, trivial, trivial, trivial⟩
    omega
  · intro hge
    simp only [ipmi_handle_command, if_neg hna, if_pos hn, if_pos hc,
      handle_get_sensor_reading, if_neg hlen', if_pos hge]

/-- C5's divergence: the C handler truncates `value * 256` toward zero,
while the claim's `round` gives a different low byte at value 55.1
(14105 = 0x3719 versus round's 14106 = 0x371A). -/
theorem get_sensor_reading_not_round :
    round ((stC5.sensors.getD 0 defaultSensor).value * 256) = 14106 ∧
    ¬ (((ipmi_handle_command stC5 reqC5 0).2).data.getD 0 0 =
          ((14106 : Int).emod 65536).toNat / 256 ∧
       ((ipmi_handle_command stC5 reqC5 0).2).data.getD 1 0 =
          ((14106 : Int).emod 65536).toNat % 256) := by
  have hv : (stC5.sensors.getD 0 defaultSensor).value = 551/10 := rfl
  have hct : ctrunc ((stC5.sensors.getD 0 defaultSensor).value * 256) =
      14105 := by
    rw [hv]
    unfold ctrunc
    rw [if_neg (by norm_num)]
    rw [Int.floor_eq_iff]
    norm_num
  have hdata : ((ipmi_handle_command stC5 reqC5 0).2).data =
      [55, 25, 0, 0] := by
    have hna : ¬ reqC5.netfn = IPMI_NETFN_APP := by decide
    have hsn : reqC5.netfn = IPMI_NETFN_SENSOR := rfl
    have hcm : reqC5.cmd = IPMI_CMD_GET_SENSOR_READING := rfl
    have hlen' : ¬ reqC5.data_len < 1 := by decide
    have hidx : reqC5.data.getD 0 0 = 0 := rfl
    have hrange : ¬ stC5.sensors.length ≤ reqC5.data.getD 0 0 := by decide
    simp only [ipmi_handle_command, if_neg hna, if_pos hsn, if_pos hcm,
      handle_get_sensor_reading, if_neg hlen', if_pos hsn, hidx,
      if_neg hrange, hct]
    decide
  constructor
  · rw [hv, round_eq]
    rw [Int.floor_eq_iff]
    norm_num
  · simp only [hdata]
    decide

/-- Witness for `get_sensor_reading_fixed_point` at the 55.1 °C state. -/
theorem get_sensor_reading_fixed_point_witness :
    (reqC5.data.getD 0 0 < stC5.sensors.length ∧
      (ipmi_handle_command stC5 reqC5 0).2.completion_code = IPMI_CC_OK ∧
      (ipmi_handle_command stC5 reqC5 0).2.data.getD 0 0 * 256 +
          (ipmi_handle_command stC5 reqC5 0).2.data.getD 1 0 =
        ((ctrunc ((stC5.sensors.getD (reqC5.data.getD 0 0)
          defaultSensor).value * 256)).emod 65536).toNat) :=
  ⟨by decide,
   ((get_sensor_reading_fixed_point stC5 reqC5 0 (by decide) (by decide)
      (by decide)).1 (by decide)).1,
   ((get_sensor_reading_fixed_point stC5 reqC5 0 (by decide) (by decide)
      (by decide)).1 (by decide)).2.1⟩

theorem ipmi_short_request_rejected :
    ∀ (st : BmcState) (req : IpmiRequest) (now : Nat),
      (req.netfn = IPMI_NETFN_SENSOR →
        req.cmd = IPMI_CMD_GET_SENSOR_READING → req.data_len < 1 →
        (ipmi_handle_command st req now).1 = st ∧
        (ipmi_handle_command st req now).2.completion_code =
          IPMI_CC_INVALID_PARAM) ∧
      (req.netfn = IPMI_NETFN_SENSOR →
        req.cmd = IPMI_CMD_SET_FAN_DUTY → req.data_len < 1 →
        (ipmi_handle_command st req now).1 = st ∧
        (ipmi_handle_command st req now).2.completion_code =
          IPMI_CC_INVALID_PARAM) ∧
      (req.netfn = IPMI_NETFN_STORAGE →
        req.cmd = IPMI_CMD_GET_SEL_ENTRY → req.data_len < 2 →
        (ipmi_handle_command st req now).1 = st ∧
        (ipmi_handle_command st req now).2.completion_code =
          IPMI_CC_INVALID_PARAM) := by
  intro st req now
  refine ⟨?_, ?_, ?_⟩
  · intro hn hc hlen
    have hna : ¬ req.netfn = IPMI_NETFN_APP := by
      rw [hn]
      decide
    simp only [ipmi_handle_command, if_neg hna, if_pos hn, if_pos hc,
      handle_get_sensor_reading, if_pos hlen]
    exact ⟨trivial, trivial⟩
  · intro hn hc hlen
    have hna : ¬ req.netfn = IPMI_NETFN_APP := by
      rw [hn]
      decide
    have hcn : ¬ req.cmd = IPMI_CMD_GET_SENSOR_READING := by
      rw [hc]
      decide
    simp only [ipmi_handle_command, if_neg hna, if_pos hn, if_neg hcn,
      if_pos hc, handle_set_fan_duty, if_pos hlen]
    exact ⟨trivial, trivial⟩
  · intro hn hc hlen
    have hna : ¬ req.netfn = IPMI_NETFN_APP := by
      rw [hn]
      decide
    have hns : ¬ req.netfn = IPMI_NETFN_SENSOR := by
      rw [hn]
      decide
    simp only [ipmi_handle_command, if_neg hna, if_neg hns, if_pos hn,
      if_pos hc, handle_get_sel_entry, if_pos hlen]
    exact ⟨trivial, trivial⟩

theorem ipmi_short_request_rejected_witness :
    ((ipmi_handle_command stC5 reqShortRead 0).2.completion_code =
      IPMI_CC_INVALID_PARAM) ∧
    ((ipmi_handle_command stC5 reqShortFan 0).1 = stC5) ∧
    ((ipmi_handle_command stC5 reqShortSel 0).2.completion_code =
      IPMI_CC_INVALID_PARAM) :=
  ⟨((ipmi_short_request_rejected stC5 reqShortRead 0).1
      (by decide) (by decide) (by decide)).2,
   ((ipmi_short_request_rejected stC5 reqShortFan 0).2.1
      (by decide) (by decide) (by decide)).1,
   ((ipmi_short_request_rejected stC5 reqShortSel 0).2.2
      (by decide) (by decide) (by decide)).2⟩

end MiniBMC
